import Mathlib

/-!
The example request driver of proxy-wasm-go-host.

A shallow embedding of `example/main.go`: the package state (`contextIDGenerator`,
`rootContextID`, `once`, `wasmCtx`), `main`, `getWasmContext`, `ServeHTTP` and the
`myHeaderMap` adapter.

Conventions of the embedding.

* `int32` values are `Int`s kept in range by `wrapInt32` (two's complement wrap-around),
  which is what `atomic.AddInt32` and the conversion `int32(len(...))` do.
* Every call that leaves the package (the file read, the engine, the ABI context, the
  guest exports, the instance lock) is recorded as an `Event`, in program order.
* The results of those calls are not decided by this package.  They are supplied per
  invocation by an `Outcomes` record; a field is looked at only when the corresponding
  call is really made, so quantifying over all records covers every environment.
* `log.Panicln` unwinds the invocation: the deferred calls run, the package state keeps
  whatever was written before the panic, and the result is flagged `panicked`.
* Writes to standard output (`fmt.Printf`, `fmt.Println`) are not recorded.
-/

namespace ProxyWasm

/-! ## Machine integers -/

/-- Two's complement reduction of an integer to the `int32` range. -/
def wrapInt32 (x : Int) : Int :=
  (x + 2147483648) % 4294967296 - 2147483648

/-- Go's `atomic.AddInt32(addr, delta)`: the new value stored at `addr`, which is also
the value returned. -/
def AddInt32 (addr : Int) (delta : Int) : Int :=
  wrapInt32 (addr + delta)

/-! ## Headers and the header adapter -/

/-- Go's `http.Header`, a `map[string][]string`, as the list of its entries (one entry per
key) in the order in which a `range` loop visits them. -/
abbrev Header := List (String × List String)

/-- Go's `len` of a header map: its number of keys. -/
def Header.len (h : Header) : Nat := h.length

/-- Go's `http.Header.Get`: the first value stored under the canonical form of `key`, or
the empty string.  The canonicalisation function of `net/textproto` is the parameter
`canon`. -/
def Header.Get (canon : String → String) (h : Header) (key : String) : String :=
  match h.lookup (canon key) with
  | none => ""
  | some [] => ""
  | some (v :: _) => v

/-- The wrapper for `http.Header`. -/
structure myHeaderMap where
  realMap : Header
  deriving DecidableEq

/-- The method `myHeaderMap.Get`: `return m.realMap.Get(key), true`. -/
def myHeaderMap.Get (canon : String → String) (m : myHeaderMap) (key : String) :
    String × Bool :=
  (Header.Get canon m.realMap key, true)

/-- The method `myHeaderMap.Range`.  The visitor `f` may have effects, so it is a state
transformer over `σ` that also returns its `bool`; the loop body is `f(k, v)` as a
statement, so that `bool` is dropped. -/
def myHeaderMap.Range {σ : Type} (canon : String → String) (m : myHeaderMap)
    (f : σ → String → String → Bool × σ) (st : σ) : σ :=
  m.realMap.foldl (fun acc kv => (f acc kv.1 (Header.Get canon m.realMap kv.1)).2) st

/-- A visitor that answers with `p` and appends each call it receives to a log. -/
def recordCalls (p : String → String → Bool) :
    List (String × String) → String → String → Bool × List (String × String) :=
  fun log k v => (p k v, log ++ [(k, v)])

/-! ## Import handlers -/

/-- The result codes of a capability call that the source uses. -/
inductive Result where
  | ResultOk
  deriving DecidableEq

/-- The type `importHandler`: the default handler with the request headers overridden. -/
structure importHandler where
  reqHeader : myHeaderMap
  deriving DecidableEq

/-- The override `GetHttpRequestHeader`. -/
def importHandler.GetHttpRequestHeader (im : importHandler) : myHeaderMap :=
  im.reqHeader

/-- The override `Log`, which prints the message and answers `ResultOk`. -/
def importHandler.Log (_im : importHandler) (_level : Int) (_msg : String) : Result :=
  Result.ResultOk

/-- The values that the field `ABIContext.Imports` takes in the source. -/
inductive ImportsHandler where
  | DefaultImportsHandler
  | custom (im : importHandler)
  deriving DecidableEq

/-- The context kinds of the ABI; the source only ever passes `ContextTypeHttpContext`. -/
inductive ContextType where
  | ContextTypeHttpContext
  | ContextTypeStreamContext
  deriving DecidableEq

/-! ## The ABI context and the package state -/

/-- The engine instance returned by `wazero.NewInstanceFromBinary`, a handle whose state
lives in the engine. -/
structure WasmInstance where
  deriving DecidableEq

/-- The struct `proxywasm.ABIContext` with the two fields the source sets. -/
structure ABIContext where
  Imports : ImportsHandler
  Instance : WasmInstance
  deriving DecidableEq

/-- The package-level variables.  `onceDone` is the state of `once` (a `sync.Once`), and
`wasmCtx` holds the object that the pointer designates (`none` is `nil`). -/
structure Pkg where
  contextIDGenerator : Int
  rootContextID : Int
  onceDone : Bool
  wasmCtx : Option ABIContext
  deriving DecidableEq

/-- The package state when the process starts: every variable has its zero value. -/
def Pkg.zero : Pkg :=
  { contextIDGenerator := 0, rootContextID := 0, onceDone := false, wasmCtx := none }

/-- The calls that leave the package, with their arguments and, where the caller looks at
it, whether they returned without error. -/
inductive Event where
  | mutexLock
  | mutexUnlock
  | ReadFile (ok : Bool)
  | NewInstanceFromBinary
  | RegisterImports
  | Start (ok : Bool)
  | Lock
  | Unlock
  | SetImports (h : importHandler)
  | ProxyOnContextCreate (id parent : Int) (kind : ContextType) (ok : Bool)
  | ProxyOnRequestHeaders (id numHeaders endOfStream : Int) (ok : Bool)
  | ProxyOnDone (id : Int) (ok : Bool)
  | WriteHeader (status : Nat)
  deriving DecidableEq

/-- What the environment answers to the calls of one invocation: `true` is a nil error. -/
structure Outcomes where
  readFile : Bool
  start : Bool
  rootCreate : Bool
  leafCreate : Bool
  requestHeaders : Bool
  done : Bool
  deriving DecidableEq

/-- The environment in which every call succeeds. -/
def Outcomes.allOk : Outcomes :=
  { readFile := true, start := true, rootCreate := true, leafCreate := true,
    requestHeaders := true, done := true }

/-- The part of `*http.Request` that `ServeHTTP` passes on. -/
structure Request where
  Header : Header
  deriving DecidableEq

/-- The outcome of one invocation of `ServeHTTP`. -/
structure Ret where
  state : Pkg
  trace : List Event
  panicked : Bool
  deriving DecidableEq

/-! ## The program -/

/-- The part of `main` before the server starts: `rootContextID` takes the first value of
the allocator. -/
def main (s : Pkg) : Pkg :=
  let v := AddInt32 s.contextIDGenerator 1
  { s with contextIDGenerator := v, rootContextID := v }

/-- The function `getWasmContext`.  The result is `none` when it panics.  The assignment
to `wasmCtx` comes before `instance.Start()`, so it survives a failed start. -/
def getWasmContext (o : Outcomes) (s : Pkg) : Pkg × List Event × Option ABIContext :=
  match s.wasmCtx with
  | some ctx => (s, [Event.mutexLock, Event.mutexUnlock], some ctx)
  | none =>
    if o.readFile then
      let ctx : ABIContext :=
        { Imports := ImportsHandler.DefaultImportsHandler, Instance := {} }
      let s1 : Pkg := { s with wasmCtx := some ctx }
      if o.start then
        (s1, [Event.mutexLock, Event.ReadFile true, Event.NewInstanceFromBinary,
              Event.RegisterImports, Event.Start true, Event.mutexUnlock], some ctx)
      else
        (s1, [Event.mutexLock, Event.ReadFile true, Event.NewInstanceFromBinary,
              Event.RegisterImports, Event.Start false, Event.mutexUnlock], none)
    else
      (s, [Event.mutexLock, Event.ReadFile false, Event.mutexUnlock], none)

/-- The statement `once.Do(func() { ... })` of `ServeHTTP`.  A `sync.Once` counts a call
whose function panics as done.  The Boolean result tells whether the function panicked. -/
def onceDo (o : Outcomes) (s : Pkg) : Pkg × List Event × Bool :=
  if s.onceDone then (s, [], false)
  else
    ({ s with onceDone := true },
     [Event.ProxyOnContextCreate s.rootContextID 0 ContextType.ContextTypeHttpContext
        o.rootCreate],
     !o.rootCreate)

/-- The body of `ServeHTTP` from `ctx.Instance.Lock(ctx)` on, for the context `ctx` and the
leaf identifier `contextID`.  `Unlock` is deferred, so it closes every path. -/
def lockedSection (r : Request) (o : Outcomes) (ctx : ABIContext) (contextID : Int)
    (s : Pkg) : Ret :=
  let im : importHandler := { reqHeader := { realMap := r.Header } }
  let s1 : Pkg := { s with wasmCtx := some { ctx with Imports := ImportsHandler.custom im } }
  let create := Event.ProxyOnContextCreate contextID s.rootContextID
    ContextType.ContextTypeHttpContext o.leafCreate
  let headers := Event.ProxyOnRequestHeaders contextID (wrapInt32 (Header.len r.Header)) 1
    o.requestHeaders
  let done := Event.ProxyOnDone contextID o.done
  if !o.leafCreate then
    { state := s1, trace := [Event.Lock, Event.SetImports im, create, Event.Unlock],
      panicked := true }
  else if !o.requestHeaders then
    { state := s1, trace := [Event.Lock, Event.SetImports im, create, headers, Event.Unlock],
      panicked := true }
  else if !o.done then
    { state := s1,
      trace := [Event.Lock, Event.SetImports im, create, headers, done, Event.Unlock],
      panicked := true }
  else
    { state := s1,
      trace := [Event.Lock, Event.SetImports im, create, headers, done,
                Event.WriteHeader 200, Event.Unlock],
      panicked := false }

/-- The handler `ServeHTTP`. -/
def ServeHTTP (r : Request) (o : Outcomes) (s : Pkg) : Ret :=
  match getWasmContext o s with
  | (s1, t1, none) => { state := s1, trace := t1, panicked := true }
  | (s1, t1, some ctx) =>
    let contextID := AddInt32 s1.contextIDGenerator 1
    let s2 : Pkg := { s1 with contextIDGenerator := contextID }
    match onceDo o s2 with
    | (s3, t3, true) => { state := s3, trace := t1 ++ t3, panicked := true }
    | (s3, t3, false) =>
      let ret := lockedSection r o ctx contextID s3
      { ret with trace := t1 ++ t3 ++ ret.trace }

/-- The server loop on one goroutine: the invocations run one after the other on the
shared package state, a panicking one included (the server recovers it), and the
traces are concatenated. -/
def serve : List (Request × Outcomes) → Pkg → Pkg × List Event
  | [], s => (s, [])
  | (r, o) :: rest, s =>
    let ret := ServeHTTP r o s
    let out := serve rest ret.state
    (out.1, ret.trace ++ out.2)

/-- The identifiers returned by the next `n` calls of `atomic.AddInt32(&g, 1)`, in
order, when the counter holds `g`. -/
def allocIDs : Nat → Int → List Int
  | 0, _ => []
  | n + 1, g => AddInt32 g 1 :: allocIDs n (AddInt32 g 1)

/-! ## Observations on traces -/

/-- An access to the guest instance: the handler installation or an export call. -/
def Event.isAccess : Event → Bool
  | Event.SetImports _ => true
  | Event.ProxyOnContextCreate _ _ _ _ => true
  | Event.ProxyOnRequestHeaders _ _ _ _ => true
  | Event.ProxyOnDone _ _ => true
  | _ => false

/-- A call of a guest export. -/
def Event.isExport : Event → Bool
  | Event.ProxyOnContextCreate _ _ _ _ => true
  | Event.ProxyOnRequestHeaders _ _ _ _ => true
  | Event.ProxyOnDone _ _ => true
  | _ => false

/-- A call of `ProxyOnContextCreate`. -/
def Event.isCreate : Event → Bool
  | Event.ProxyOnContextCreate _ _ _ _ => true
  | _ => false

/-- A call of `ProxyOnContextCreate` for the context `id`. -/
def Event.isCreateOf (id : Int) : Event → Bool
  | Event.ProxyOnContextCreate i _ _ _ => decide (i = id)
  | _ => false

/-- A call of `ProxyOnContextCreate` whose parent argument is `parent`. -/
def Event.isCreateUnder (parent : Int) : Event → Bool
  | Event.ProxyOnContextCreate _ p _ _ => decide (p = parent)
  | _ => false

/-- A call of `ProxyOnDone`. -/
def Event.isDone : Event → Bool
  | Event.ProxyOnDone _ _ => true
  | _ => false

/-- A call of `ProxyOnDone` for the context `id`. -/
def Event.isDoneOf (id : Int) : Event → Bool
  | Event.ProxyOnDone i _ => decide (i = id)
  | _ => false

/-- The call `Instance.Lock`. -/
def Event.isLock : Event → Bool
  | Event.Lock => true
  | _ => false

/-- The call `Instance.Unlock`. -/
def Event.isUnlock : Event → Bool
  | Event.Unlock => true
  | _ => false

/-- A call of `Start` that returned no error. -/
def Event.isStartOk : Event → Bool
  | Event.Start ok => ok
  | _ => false

/-- Whether every access of a trace is made while the instance lock is held; `held` tells
whether it is held when the trace begins. -/
def withinLock : Bool → List Event → Bool
  | _, [] => true
  | held, e :: es =>
    match e with
    | Event.Lock => withinLock true es
    | Event.Unlock => withinLock false es
    | _ => (!e.isAccess || held) && withinLock held es

/-- Whether every export call of a trace comes after a `Start` that returned no error;
`started` tells whether such a `Start` precedes the trace. -/
def exportsAfterStart : Bool → List Event → Bool
  | _, [] => true
  | started, e :: es =>
    (!e.isExport || started) && exportsAfterStart (started || e.isStartOk) es

/-- The events that follow the first `Instance.Lock` of a trace. -/
def afterLock : List Event → List Event
  | [] => []
  | e :: es => if e.isLock then es else afterLock es

/-! ## Inputs used in the concrete evaluations -/

/-- A request with two header keys. -/
def twoHeaders : Request :=
  { Header := [("A", ["1"]), ("B", ["2"])] }

/-- The environment in which only `ProxyOnRequestHeaders` returns an error. -/
def Outcomes.headersFail : Outcomes :=
  { Outcomes.allOk with requestHeaders := false }

/-- The environment in which `os.ReadFile` returns an error. -/
def Outcomes.readFails : Outcomes :=
  { Outcomes.allOk with readFile := false }

/-- The environment in which only `instance.Start()` returns an error. -/
def Outcomes.startFails : Outcomes :=
  { Outcomes.allOk with start := false }

/-- The environment in which only the root `ProxyOnContextCreate` returns an error. -/
def Outcomes.rootFails : Outcomes :=
  { Outcomes.allOk with rootCreate := false }

/-! ## Lemmas on the machine integers and the allocator -/

/-- Reducing before or after an addition gives the same `int32`. -/
theorem wrapInt32_add_wrapInt32 (a b : Int) : wrapInt32 (wrapInt32 a + b) = wrapInt32 (a + b) := by
  unfold wrapInt32; omega

/-- A value in the `int32` range is left alone. -/
theorem wrapInt32_of_range (a : Int) (h1 : -2147483648 ≤ a) (h2 : a ≤ 2147483647) :
    wrapInt32 a = a := by
  unfold wrapInt32; omega

/-- The identifier at position `i` of a run of allocations is the counter plus `i + 1`,
reduced to `int32`. -/
theorem allocIDs_getElem (n : Nat) : ∀ (g : Int) (i : Nat), i < n →
    (allocIDs n g)[i]? = some (wrapInt32 (g + (i + 1))) := by
  induction n with
  | zero => intro g i h; omega
  | succ n ih =>
    intro g i h
    cases i with
    | zero => simp [allocIDs, AddInt32]
    | succ i =>
      simp only [allocIDs, List.getElem?_cons_succ]
      rw [ih _ i (by omega)]
      simp only [AddInt32, wrapInt32_add_wrapInt32]
      congr 2
      push_cast
      ring

/-- As long as the counter stays in the `int32` range, the counter value followed by the
identifiers allocated after it is strictly increasing. -/
theorem allocIDs_pairwise (n : Nat) : ∀ g : Int, -2147483648 ≤ g → g + n ≤ 2147483647 →
    List.Pairwise (· < ·) (g :: allocIDs n g) := by
  induction n with
  | zero => intro g _ _; simp [allocIDs]
  | succ n ih =>
    intro g h1 h2
    have hg : AddInt32 g 1 = g + 1 := by
      unfold AddInt32; apply wrapInt32_of_range <;> omega
    have ih1 := ih (g + 1) (by omega) (by push_cast at h2; omega)
    simp only [allocIDs, hg]
    rw [List.pairwise_cons]
    refine ⟨?_, ih1⟩
    intro a ha
    rw [List.pairwise_cons] at ih1
    rcases List.mem_cons.1 ha with rfl | ha
    · omega
    · have := ih1.1 a ha
      omega


/-! ## Lemmas on one invocation -/

/-- The locked section starts with `Lock`, and all that follows is inside the lock. -/
theorem lockedSection_trace_shape (r : Request) (o : Outcomes) (ctx : ABIContext) (id : Int)
    (s : Pkg) :
    ∃ tl, (lockedSection r o ctx id s).trace = Event.Lock :: tl ∧ withinLock true tl = true := by
  rcases o with ⟨a, b, c, d, e, f⟩
  cases d <;> cases e <;> cases f <;> simp [lockedSection, withinLock, Event.isAccess]

/-- The locked section changes only the installed handler. -/
theorem lockedSection_state (r : Request) (o : Outcomes) (ctx : ABIContext) (id : Int)
    (s : Pkg) :
    (lockedSection r o ctx id s).state =
      { s with wasmCtx := some { ctx with
          Imports := ImportsHandler.custom { reqHeader := { realMap := r.Header } } } } := by
  rcases o with ⟨a, b, c, d, e, f⟩
  cases d <;> cases e <;> cases f <;> simp [lockedSection]

/-- The first three calls of the locked section. -/
theorem lockedSection_take (r : Request) (o : Outcomes) (ctx : ABIContext) (id : Int)
    (s : Pkg) :
    (lockedSection r o ctx id s).trace.take 3 =
      [Event.Lock, Event.SetImports { reqHeader := { realMap := r.Header } },
       Event.ProxyOnContextCreate id s.rootContextID ContextType.ContextTypeHttpContext
         o.leafCreate] := by
  rcases o with ⟨a, b, c, d, e, f⟩
  cases d <;> cases e <;> cases f <;> simp [lockedSection]

/-- The locked section creates and ends no context other than its leaf. -/
theorem lockedSection_ids (r : Request) (o : Outcomes) (ctx : ABIContext) (id : Int)
    (s : Pkg) (x : Int) (hx : id ≠ x) :
    ∀ e ∈ (lockedSection r o ctx id s).trace,
      e.isCreateOf x = false ∧ e.isDoneOf x = false := by
  rcases o with ⟨a, b, c, d, e, f⟩
  cases d <;> cases e <;> cases f <;>
    simp [lockedSection, Event.isCreateOf, Event.isDoneOf, hx]

/-- The locked section creates no context under a parent other than the root. -/
theorem lockedSection_under (r : Request) (o : Outcomes) (ctx : ABIContext) (id : Int)
    (s : Pkg) (p : Int) (hp : s.rootContextID ≠ p) :
    (lockedSection r o ctx id s).trace.countP (Event.isCreateUnder p) = 0 := by
  rcases o with ⟨a, b, c, d, e, f⟩
  cases d <;> cases e <;> cases f <;>
    simp [lockedSection, Event.isCreateUnder, hp]

/-- An invocation that finds the context loaded and the once gate consumed is two mutex
calls followed by the locked section for a fresh identifier. -/
theorem ServeHTTP_warm (r : Request) (o : Outcomes) (s : Pkg) (ctx : ABIContext)
    (h1 : s.wasmCtx = some ctx) (h2 : s.onceDone = true) :
    ServeHTTP r o s =
      { state := (lockedSection r o ctx (AddInt32 s.contextIDGenerator 1)
          { s with contextIDGenerator := AddInt32 s.contextIDGenerator 1 }).state,
        trace := Event.mutexLock :: Event.mutexUnlock ::
          (lockedSection r o ctx (AddInt32 s.contextIDGenerator 1)
            { s with contextIDGenerator := AddInt32 s.contextIDGenerator 1 }).trace,
        panicked := (lockedSection r o ctx (AddInt32 s.contextIDGenerator 1)
          { s with contextIDGenerator := AddInt32 s.contextIDGenerator 1 }).panicked } := by
  rcases s with ⟨g, root, od, c⟩
  simp only at h1 h2
  subst h1 h2
  simp [ServeHTTP, getWasmContext, onceDo]

/-- Serving a concatenation is serving the parts in turn. -/
theorem serve_append (a b : List (Request × Outcomes)) : ∀ s : Pkg,
    serve (a ++ b) s = ((serve b (serve a s).1).1, (serve a s).2 ++ (serve b (serve a s).1).2) := by
  induction a with
  | nil => intro s; simp [serve]
  | cons x a ih =>
    intro s
    rcases x with ⟨r, o⟩
    simp [serve, ih]


/-- An invocation never writes `rootContextID`. -/
theorem ServeHTTP_root (r : Request) (o : Outcomes) (s : Pkg) :
    (ServeHTTP r o s).state.rootContextID = s.rootContextID := by
  rcases s with ⟨g, root, od, ctx⟩
  rcases o with ⟨a, b, c, d, e, f⟩
  cases ctx <;> cases od <;> cases a <;> cases b <;> cases c <;>
    simp [ServeHTTP, getWasmContext, onceDo, lockedSection_state]

/-- A consumed once gate stays consumed. -/
theorem ServeHTTP_onceDone_mono (r : Request) (o : Outcomes) (s : Pkg)
    (h : s.onceDone = true) : (ServeHTTP r o s).state.onceDone = true := by
  rcases s with ⟨g, root, od, ctx⟩
  rcases o with ⟨a, b, c, d, e, f⟩
  simp only at h
  subst h
  cases ctx <;> cases a <;> cases b <;>
    simp [ServeHTTP, getWasmContext, onceDo, lockedSection_state]

/-- An invocation that leaves the once gate open has created no context. -/
theorem ServeHTTP_cold (r : Request) (o : Outcomes) (s : Pkg)
    (h : (ServeHTTP r o s).state.onceDone = false) :
    (ServeHTTP r o s).trace.countP Event.isCreate = 0 := by
  rcases s with ⟨g, root, od, ctx⟩
  rcases o with ⟨a, b, c, d, e, f⟩
  cases ctx <;> cases od <;> cases a <;> cases b <;> cases c <;>
    simp [ServeHTTP, getWasmContext, onceDo, lockedSection_state, Event.isCreate] at h ⊢

/-- The invocation that runs the once gate and gets an error from the root creation. -/
theorem ServeHTTP_gate_fails (r : Request) (o : Outcomes) (s : Pkg)
    (hgate : s.onceDone = false) (hctx : (getWasmContext o s).2.2.isSome = true)
    (hfail : o.rootCreate = false) :
    (ServeHTTP r o s).panicked = true ∧ (ServeHTTP r o s).state.onceDone = true ∧
    (ServeHTTP r o s).state.wasmCtx.isSome = true ∧
    (ServeHTTP r o s).trace.filter Event.isAccess =
      [Event.ProxyOnContextCreate s.rootContextID 0 ContextType.ContextTypeHttpContext false]
      := by
  rcases s with ⟨g, root, od, ctx⟩
  rcases o with ⟨a, b, c, d, e, f⟩
  simp only at hgate hfail
  subst hgate hfail
  cases ctx <;> cases a <;> cases b <;>
    simp [ServeHTTP, getWasmContext, onceDo, Event.isAccess] at hctx ⊢

/-- No sequence of invocations writes `rootContextID`. -/
theorem serve_root (l : List (Request × Outcomes)) : ∀ s : Pkg,
    (serve l s).1.rootContextID = s.rootContextID := by
  induction l with
  | nil => intro s; rfl
  | cons x l ih =>
    intro s
    rcases x with ⟨r, o⟩
    simp only [serve]
    rw [ih, ServeHTTP_root]

/-- A consumed once gate stays consumed over a sequence of invocations. -/
theorem serve_onceDone_mono (l : List (Request × Outcomes)) : ∀ s : Pkg,
    s.onceDone = true → (serve l s).1.onceDone = true := by
  induction l with
  | nil => intro s h; exact h
  | cons x l ih =>
    intro s h
    rcases x with ⟨r, o⟩
    simp only [serve]
    exact ih _ (ServeHTTP_onceDone_mono r o s h)

/-- A sequence of invocations that leaves the once gate open has created no context. -/
theorem serve_cold (l : List (Request × Outcomes)) : ∀ s : Pkg,
    (serve l s).1.onceDone = false → (serve l s).2.countP Event.isCreate = 0 := by
  induction l with
  | nil => intro s _; rfl
  | cons x l ih =>
    intro s h
    rcases x with ⟨r, o⟩
    simp only [serve] at h ⊢
    have hstep : (ServeHTTP r o s).state.onceDone = false := by
      cases hc : (ServeHTTP r o s).state.onceDone with
      | false => rfl
      | true => rw [serve_onceDone_mono l _ hc] at h; exact absurd h (by decide)
    rw [List.countP_append, ServeHTTP_cold r o s hstep, ih _ h]

/-- With the context loaded and the gate consumed, an invocation keeps both and advances
the allocator by one. -/
theorem ServeHTTP_warm_inv (r : Request) (o : Outcomes) (s : Pkg)
    (h1 : s.onceDone = true) (h2 : s.wasmCtx.isSome = true) :
    (ServeHTTP r o s).state.onceDone = true ∧ (ServeHTTP r o s).state.wasmCtx.isSome = true ∧
    (ServeHTTP r o s).state.contextIDGenerator = AddInt32 s.contextIDGenerator 1 := by
  obtain ⟨ctx, hctx⟩ := Option.isSome_iff_exists.1 h2
  rw [ServeHTTP_warm r o s ctx hctx h1]
  simp [lockedSection_state, h1]

/-- The context stays loaded and the gate consumed over a sequence of invocations. -/
theorem serve_warm_inv (l : List (Request × Outcomes)) : ∀ s : Pkg,
    s.onceDone = true → s.wasmCtx.isSome = true →
    (serve l s).1.onceDone = true ∧ (serve l s).1.wasmCtx.isSome = true := by
  induction l with
  | nil => intro s h1 h2; exact ⟨h1, h2⟩
  | cons x l ih =>
    intro s h1 h2
    rcases x with ⟨r, o⟩
    simp only [serve]
    have := ServeHTTP_warm_inv r o s h1 h2
    exact ih _ this.1 this.2.1

/-- With the context loaded and the gate consumed, no context is created under a parent
other than the root. -/
theorem serve_warm_under (p : Int) (l : List (Request × Outcomes)) : ∀ s : Pkg,
    s.onceDone = true → s.wasmCtx.isSome = true → s.rootContextID ≠ p →
    (serve l s).2.countP (Event.isCreateUnder p) = 0 := by
  induction l with
  | nil => intro s _ _ _; rfl
  | cons x l ih =>
    intro s h1 h2 h3
    rcases x with ⟨r, o⟩
    simp only [serve]
    have hinv := ServeHTTP_warm_inv r o s h1 h2
    have hroot := ServeHTTP_root r o s
    rw [List.countP_append, ih _ hinv.1 hinv.2.1 (by rw [hroot]; exact h3)]
    obtain ⟨ctx, hctx⟩ := Option.isSome_iff_exists.1 h2
    rw [ServeHTTP_warm r o s ctx hctx h1]
    simp [List.countP_cons, Event.isCreateUnder, lockedSection_under, h3]

/-- With the context loaded and the gate consumed, and the allocator short of a full
cycle of `2^32` steps, no later call creates or ends the context `1`. -/
theorem serve_warm_ids (l : List (Request × Outcomes)) : ∀ (s : Pkg) (k : Int),
    s.onceDone = true → s.wasmCtx.isSome = true → s.contextIDGenerator = wrapInt32 k →
    1 ≤ k → k + l.length ≤ 4294967296 →
    ∀ e ∈ (serve l s).2, e.isCreateOf 1 = false ∧ e.isDoneOf 1 = false := by
  induction l with
  | nil => intro s k _ _ _ _ _ e he; simp [serve] at he
  | cons x l ih =>
    intro s k h1 h2 h3 h4 h5 e he
    rcases x with ⟨r, o⟩
    simp only [serve, List.mem_append] at he
    have hinv := ServeHTTP_warm_inv r o s h1 h2
    have hid : AddInt32 s.contextIDGenerator 1 = wrapInt32 (k + 1) := by
      rw [h3, AddInt32, wrapInt32_add_wrapInt32]
    have hlen : ((List.length ((r, o) :: l) : Nat) : Int) = (l.length : Int) + 1 := by
      simp
    rw [hlen] at h5
    rcases he with he | he
    · obtain ⟨ctx, hctx⟩ := Option.isSome_iff_exists.1 h2
      rw [ServeHTTP_warm r o s ctx hctx h1] at he
      simp only [List.mem_cons] at he
      rcases he with rfl | rfl | he
      · simp [Event.isCreateOf, Event.isDoneOf]
      · simp [Event.isCreateOf, Event.isDoneOf]
      · refine lockedSection_ids r o ctx _ _ 1 ?_ e he
        rw [hid]
        unfold wrapInt32
        omega
    · exact ih _ (k + 1) hinv.1 hinv.2.1 (by rw [hinv.2.2, hid]) (by omega) (by omega) e he


/-- The root identifier that `main` allocates is `1`. -/
theorem main_zero_root : (main Pkg.zero).rootContextID = 1 := by decide

/-- The first invocation after `main`, when the module loads and starts. -/
theorem ServeHTTP_first (r : Request) (o : Outcomes) (h1 : o.readFile = true)
    (h2 : o.start = true) :
    ∃ post,
      (ServeHTTP r o (main Pkg.zero)).trace =
        [Event.mutexLock, Event.ReadFile true, Event.NewInstanceFromBinary,
         Event.RegisterImports, Event.Start true, Event.mutexUnlock] ++
        Event.ProxyOnContextCreate 1 0 ContextType.ContextTypeHttpContext o.rootCreate :: post ∧
      (∀ e ∈ post, e.isCreateOf 1 = false ∧ e.isDoneOf 1 = false) ∧
      (ServeHTTP r o (main Pkg.zero)).state.onceDone = true ∧
      (ServeHTTP r o (main Pkg.zero)).state.wasmCtx.isSome = true ∧
      (ServeHTTP r o (main Pkg.zero)).state.contextIDGenerator = wrapInt32 2 := by
  rcases o with ⟨a, b, c, d, e, f⟩
  simp only at h1 h2
  subst h1 h2
  have h21 : AddInt32 1 1 = 2 := by decide
  have h01 : AddInt32 0 1 = 1 := by decide
  have hw : wrapInt32 2 = 2 := by decide
  cases c with
  | false =>
    refine ⟨[], ?_⟩
    simp [ServeHTTP, getWasmContext, onceDo, main, Pkg.zero, h21, hw, h01]
  | true =>
    refine ⟨(lockedSection r ⟨true, true, true, d, e, f⟩
      { Imports := ImportsHandler.DefaultImportsHandler, Instance := {} } 2
      { contextIDGenerator := 2, rootContextID := 1, onceDone := true,
        wasmCtx := some { Imports := ImportsHandler.DefaultImportsHandler, Instance := {} } }).trace,
      ?_, ?_, ?_⟩
    · simp [ServeHTTP, getWasmContext, onceDo, main, Pkg.zero, h21, h01]
    · exact lockedSection_ids _ _ _ _ _ 1 (by decide)
    · simp [ServeHTTP, getWasmContext, onceDo, main, Pkg.zero, h21, h01, hw,
        lockedSection_state]

/-! ## Single invocations -/

/-- C1, evaluated on the code: in the first invocation after `main`, with the leaf
`ProxyOnContextCreate` succeeding and `ProxyOnRequestHeaders` returning an error, the
invocation panics, the last guest call is the failed `ProxyOnRequestHeaders`, `Unlock`
follows it directly, and `ProxyOnDone` is not called at all. -/
theorem C1_done_skipped_after_failed_headers :
    (ServeHTTP twoHeaders Outcomes.headersFail (main Pkg.zero)).panicked = true ∧
    afterLock (ServeHTTP twoHeaders Outcomes.headersFail (main Pkg.zero)).trace =
      [Event.SetImports { reqHeader := { realMap := twoHeaders.Header } },
       Event.ProxyOnContextCreate 2 1 ContextType.ContextTypeHttpContext true,
       Event.ProxyOnRequestHeaders 2 2 1 false,
       Event.Unlock] ∧
    (ServeHTTP twoHeaders Outcomes.headersFail (main Pkg.zero)).trace.any Event.isDone
      = false := by
  decide

/-- C3, evaluated on the code: when `instance.Start()` returns an error in the first
invocation, that invocation panics with `wasmCtx` already assigned, and the second
invocation calls the guest exports although no `Start` has returned without error. -/
theorem C3_exports_called_after_failed_start :
    (ServeHTTP twoHeaders Outcomes.startFails (main Pkg.zero)).panicked = true ∧
    (ServeHTTP twoHeaders Outcomes.startFails (main Pkg.zero)).state.wasmCtx.isSome = true ∧
    (serve [(twoHeaders, Outcomes.startFails), (twoHeaders, Outcomes.allOk)]
      (main Pkg.zero)).2.any Event.isStartOk = false ∧
    (serve [(twoHeaders, Outcomes.startFails), (twoHeaders, Outcomes.allOk)]
      (main Pkg.zero)).2.countP Event.isExport = 4 ∧
    exportsAfterStart false
      (serve [(twoHeaders, Outcomes.startFails), (twoHeaders, Outcomes.allOk)]
        (main Pkg.zero)).2 = false := by
  decide

/-- C6: an invocation of `ServeHTTP` that calls `Instance.Lock` calls it once, calls
`Instance.Unlock` exactly once, and that `Unlock` is the last call of the invocation,
whatever the guest calls return. -/
theorem C6_unlock_exactly_once (r : Request) (o : Outcomes) (s : Pkg)
    (h : (ServeHTTP r o s).trace.any Event.isLock = true) :
    (ServeHTTP r o s).trace.countP Event.isUnlock = 1 ∧
    (ServeHTTP r o s).trace.countP Event.isLock = 1 ∧
    (ServeHTTP r o s).trace.getLast? = some Event.Unlock := by
  rcases s with ⟨g, root, od, ctx⟩
  rcases o with ⟨a, b, c, d, e, f⟩
  cases ctx <;> cases od <;> cases a <;> cases b <;> cases c <;> cases d <;> cases e <;>
    cases f <;>
    simp [ServeHTTP, getWasmContext, onceDo, lockedSection, Event.isLock, Event.isUnlock,
      List.countP_cons] at h ⊢

/-- C6 at a concrete input: the first invocation after `main`, panicking on a failed
`ProxyOnRequestHeaders`. -/
theorem C6_unlock_exactly_once_witness :
    (ServeHTTP twoHeaders Outcomes.headersFail (main Pkg.zero)).trace.any Event.isLock = true ∧
    (ServeHTTP twoHeaders Outcomes.headersFail (main Pkg.zero)).panicked = true ∧
    ((ServeHTTP twoHeaders Outcomes.headersFail (main Pkg.zero)).trace.countP Event.isUnlock = 1 ∧
     (ServeHTTP twoHeaders Outcomes.headersFail (main Pkg.zero)).trace.countP Event.isLock = 1 ∧
     (ServeHTTP twoHeaders Outcomes.headersFail (main Pkg.zero)).trace.getLast?
       = some Event.Unlock) :=
  ⟨by decide, by decide,
   C6_unlock_exactly_once twoHeaders Outcomes.headersFail (main Pkg.zero) (by decide)⟩

/-- C7: in an invocation whose guest calls all succeed and whose module is loaded (it
was loaded before, or the file read succeeds), with a header map of fewer than `2^31`
keys, the accesses to the guest instance after `Instance.Lock` are exactly `SetImports`
of a handler whose `GetHttpRequestHeader` is the adapter over the request headers,
`ProxyOnContextCreate(id, rootContextID, ContextTypeHttpContext)`,
`ProxyOnRequestHeaders(id, number of keys, 1)` and `ProxyOnDone(id)`, where `id` is the
one value the allocator gives in this invocation. -/
theorem C7_locked_protocol (r : Request) (o : Outcomes) (s : Pkg)
    (hload : s.wasmCtx.isSome = true ∨ o.readFile = true)
    (hstart : o.start = true) (hroot : o.rootCreate = true) (hleaf : o.leafCreate = true)
    (hhdrs : o.requestHeaders = true) (hdone : o.done = true)
    (hlen : Header.len r.Header < 2 ^ 31) :
    ∃ im : importHandler,
      im.GetHttpRequestHeader = { realMap := r.Header } ∧
      (afterLock (ServeHTTP r o s).trace).filter Event.isAccess =
        [Event.SetImports im,
         Event.ProxyOnContextCreate (AddInt32 s.contextIDGenerator 1) s.rootContextID
           ContextType.ContextTypeHttpContext true,
         Event.ProxyOnRequestHeaders (AddInt32 s.contextIDGenerator 1)
           (Header.len r.Header) 1 true,
         Event.ProxyOnDone (AddInt32 s.contextIDGenerator 1) true] ∧
      (ServeHTTP r o s).state.contextIDGenerator = AddInt32 s.contextIDGenerator 1 ∧
      (ServeHTTP r o s).state.rootContextID = s.rootContextID ∧
      (ServeHTTP r o s).panicked = false := by
  have hw : wrapInt32 (Header.len r.Header) = (Header.len r.Header : Int) := by
    unfold wrapInt32
    have h2 : (2 : Nat) ^ 31 = 2147483648 := by norm_num
    omega
  refine ⟨{ reqHeader := { realMap := r.Header } }, rfl, ?_⟩
  rcases s with ⟨g, root, od, ctx⟩
  rcases o with ⟨a, b, c, d, e, f⟩
  simp only at hstart hroot hleaf hhdrs hdone
  subst hstart hroot hleaf hhdrs hdone
  cases ctx <;> cases od <;> cases a <;>
    simp [ServeHTTP, getWasmContext, onceDo, lockedSection, Event.isLock, Event.isAccess,
      afterLock, hw] at hload ⊢

/-- C7 at a concrete input: the first invocation after `main` with two header keys. -/
theorem C7_locked_protocol_witness :
    ∃ im : importHandler,
      im.GetHttpRequestHeader = { realMap := twoHeaders.Header } ∧
      (afterLock (ServeHTTP twoHeaders Outcomes.allOk (main Pkg.zero)).trace).filter
          Event.isAccess =
        [Event.SetImports im,
         Event.ProxyOnContextCreate (AddInt32 (main Pkg.zero).contextIDGenerator 1)
           (main Pkg.zero).rootContextID ContextType.ContextTypeHttpContext true,
         Event.ProxyOnRequestHeaders (AddInt32 (main Pkg.zero).contextIDGenerator 1)
           (Header.len twoHeaders.Header) 1 true,
         Event.ProxyOnDone (AddInt32 (main Pkg.zero).contextIDGenerator 1) true] ∧
      (ServeHTTP twoHeaders Outcomes.allOk (main Pkg.zero)).state.contextIDGenerator
        = AddInt32 (main Pkg.zero).contextIDGenerator 1 ∧
      (ServeHTTP twoHeaders Outcomes.allOk (main Pkg.zero)).state.rootContextID
        = (main Pkg.zero).rootContextID ∧
      (ServeHTTP twoHeaders Outcomes.allOk (main Pkg.zero)).panicked = false :=
  C7_locked_protocol twoHeaders Outcomes.allOk (main Pkg.zero) (Or.inr rfl) rfl rfl rfl rfl rfl
    (by decide)

/-! ## The header adapter -/

/-- C8, evaluated on the code: on an empty header map, `myHeaderMap.Get` answers the
empty string with `found = true` for a key that is absent. -/
theorem C8_get_reports_found_for_absent_key (canon : String → String) :
    myHeaderMap.Get canon { realMap := [] } "X-Absent" = ("", true) := by
  simp [myHeaderMap.Get, Header.Get]

/-- C9, evaluated on the code: with a visitor that always returns false, `Range` over a
map of two entries still calls the visitor on both entries. -/
theorem C9_range_ignores_visitor_result (canon : String → String) :
    (myHeaderMap.Range canon { realMap := twoHeaders.Header }
      (recordCalls (fun _ _ => false)) []).map Prod.fst = ["A", "B"] := by
  simp [myHeaderMap.Range, recordCalls, twoHeaders]


/-! ## Lock discipline -/

/-- C2 fails as stated: in the first invocation after `main`, with every call succeeding,
the root `ProxyOnContextCreate` is made before `Instance.Lock`, so not every access of the
invocation lies between its `Lock` and its `Unlock`. -/
theorem C2_root_create_outside_lock :
    withinLock false (ServeHTTP twoHeaders Outcomes.allOk (main Pkg.zero)).trace = false := by
  decide

/-- C2 as amended: in every invocation, the only access made before `Instance.Lock` is the
root `ProxyOnContextCreate(rootContextID, 0, ContextTypeHttpContext)` of the once gate, made
at most once and only when the gate was not yet consumed; every access from `Lock` on,
`SetImports` and the leaf export calls, is made while the lock is held. -/
theorem C2_accesses_locked_except_root_create (r : Request) (o : Outcomes) (s : Pkg) :
    (∀ e ∈ (ServeHTTP r o s).trace.takeWhile (fun e => !e.isLock),
      e.isAccess = true →
        s.onceDone = false ∧
        e = Event.ProxyOnContextCreate s.rootContextID 0 ContextType.ContextTypeHttpContext
              o.rootCreate) ∧
    ((ServeHTTP r o s).trace.takeWhile (fun e => !e.isLock)).countP Event.isAccess ≤ 1 ∧
    withinLock false ((ServeHTTP r o s).trace.dropWhile (fun e => !e.isLock)) = true := by
  rcases s with ⟨g, root, od, ctx⟩
  cases ctx with
  | none =>
    obtain ⟨tl, htl, hw⟩ := lockedSection_trace_shape r o
      { Imports := ImportsHandler.DefaultImportsHandler, Instance := {} }
      (AddInt32 g 1)
      { contextIDGenerator := AddInt32 g 1, rootContextID := root, onceDone := true,
        wasmCtx := some { Imports := ImportsHandler.DefaultImportsHandler, Instance := {} } }
    rcases o with ⟨a, b, c, d, e, f⟩
    cases od <;> cases a <;> cases b <;> cases c <;>
      simp [ServeHTTP, getWasmContext, onceDo, Event.isLock, Event.isAccess,
        List.countP_cons, withinLock, List.takeWhile_cons, List.dropWhile_cons, htl, hw]
  | some ctx =>
    obtain ⟨tl, htl, hw⟩ := lockedSection_trace_shape r o ctx (AddInt32 g 1)
      { contextIDGenerator := AddInt32 g 1, rootContextID := root, onceDone := true,
        wasmCtx := some ctx }
    rcases o with ⟨a, b, c, d, e, f⟩
    cases od <;> cases c <;>
      simp [ServeHTTP, getWasmContext, onceDo, Event.isLock, Event.isAccess,
        List.countP_cons, withinLock, List.takeWhile_cons, List.dropWhile_cons, htl, hw]


/-! ## The allocator -/

/-- C5 as amended: after `main` has allocated the root identifier, for every
`N ≤ 2^31 - 2` the root identifier followed by the first `N` leaf identifiers is strictly
increasing, so each leaf identifier exceeds the root and every identifier before it. -/
theorem C5_ids_strictly_increasing (N : Nat) (hN : N ≤ 2 ^ 31 - 2) :
    List.Pairwise (· < ·)
      ((main Pkg.zero).rootContextID :: allocIDs N (main Pkg.zero).contextIDGenerator) := by
  have h1 : (main Pkg.zero).rootContextID = 1 := by decide
  have h2 : (main Pkg.zero).contextIDGenerator = 1 := by decide
  rw [h1, h2]
  have h3 : (2 : Nat) ^ 31 = 2147483648 := by norm_num
  apply allocIDs_pairwise
  · omega
  · omega

/-- C5 at a concrete input: three leaf identifiers. -/
theorem C5_ids_strictly_increasing_witness :
    3 ≤ 2 ^ 31 - 2 ∧
    List.Pairwise (· < ·)
      ((main Pkg.zero).rootContextID :: allocIDs 3 (main Pkg.zero).contextIDGenerator) :=
  ⟨by norm_num, C5_ids_strictly_increasing 3 (by norm_num)⟩

/-- C5 fails as stated: the bound `N ≤ 2^31 - 1` admits `N = 2^31 - 1`, whose last leaf
identifier is `1 + (2^31 - 1)` wrapped to `-2^31`, which is below the root identifier. -/
theorem C5_bound_off_by_one :
    ¬ ∀ N : Nat, N ≤ 2 ^ 31 - 1 →
      List.Pairwise (· < ·)
        ((main Pkg.zero).rootContextID :: allocIDs N (main Pkg.zero).contextIDGenerator) := by
  intro h
  have hp := h (2 ^ 31 - 1) le_rfl
  have h1 : (main Pkg.zero).rootContextID = 1 := by decide
  have h2 : (main Pkg.zero).contextIDGenerator = 1 := by decide
  rw [h1, h2, List.pairwise_cons] at hp
  have hget := allocIDs_getElem (2 ^ 31 - 1) 1 (2 ^ 31 - 2) (by norm_num)
  have hmem := List.mem_iff_getElem?.2 ⟨_, hget⟩
  have := hp.1 _ hmem
  have hval : wrapInt32 (1 + (((2 ^ 31 - 2 : Nat) : Int) + 1)) = -2147483648 := by
    norm_num [wrapInt32]
  rw [hval] at this
  omega


/-! ## Sequences of invocations -/

/-- A sequence of invocations run from a state in which `main` has allocated the root
identifier, no context is loaded and the once gate is open, whose first invocation loads
and starts the module: the root is created once, before every other creation, and is never
ended. -/
theorem serve_from_loading_invocation (r : Request) (o : Outcomes) (rest : List (Request × Outcomes))
    (hread : o.readFile = true) (hstart : o.start = true)
    (hlen : ((r, o) :: rest).length < 2 ^ 32) :
    ∃ pre post ok,
      (serve ((r, o) :: rest) (main Pkg.zero)).2 =
        pre ++ Event.ProxyOnContextCreate (main Pkg.zero).rootContextID 0
          ContextType.ContextTypeHttpContext ok :: post ∧
      (∀ e ∈ pre, e.isCreate = false) ∧
      (∀ e ∈ post, e.isCreateOf (main Pkg.zero).rootContextID = false) ∧
      (serve ((r, o) :: rest) (main Pkg.zero)).2.countP
        (Event.isCreateOf (main Pkg.zero).rootContextID) = 1 ∧
      (∀ e ∈ (serve ((r, o) :: rest) (main Pkg.zero)).2,
        e.isDoneOf (main Pkg.zero).rootContextID = false) := by
  obtain ⟨post1, htr, hpost1, hd, hc, hg⟩ := ServeHTTP_first r o hread hstart
  have h32 : (2 : Nat) ^ 32 = 4294967296 := by norm_num
  have hrest := serve_warm_ids rest (ServeHTTP r o (main Pkg.zero)).state 2 hd hc hg
    (by norm_num) (by simp only [List.length_cons] at hlen; omega)
  have hpost : ∀ e ∈ post1 ++ (serve rest (ServeHTTP r o (main Pkg.zero)).state).2,
      e.isCreateOf 1 = false ∧ e.isDoneOf 1 = false := by
    intro e he
    rcases List.mem_append.1 he with he | he
    · exact hpost1 e he
    · exact hrest e he
  have htrace : (serve ((r, o) :: rest) (main Pkg.zero)).2 =
      [Event.mutexLock, Event.ReadFile true, Event.NewInstanceFromBinary,
       Event.RegisterImports, Event.Start true, Event.mutexUnlock] ++
      Event.ProxyOnContextCreate 1 0 ContextType.ContextTypeHttpContext o.rootCreate ::
        (post1 ++ (serve rest (ServeHTTP r o (main Pkg.zero)).state).2) := by
    simp only [serve, htr]
    simp
  rw [main_zero_root]
  refine ⟨_, _, _, htrace, ?_, fun e he => (hpost e he).1, ?_, ?_⟩
  · intro e he
    simp only [List.mem_cons, List.mem_singleton, List.not_mem_nil, or_false] at he
    rcases he with rfl | rfl | rfl | rfl | rfl | rfl <;> rfl
  · rw [htrace]
    have h0 : List.countP (Event.isCreateOf 1)
        (post1 ++ (serve rest (ServeHTTP r o (main Pkg.zero)).state).2) = 0 := by
      rw [List.countP_eq_zero]
      intro e he
      simp [(hpost e he).1]
    simp [List.countP_cons, Event.isCreateOf, h0]
  · intro e he
    rw [htrace] at he
    simp only [List.mem_append, List.mem_cons] at he
    rcases he with he | rfl | he
    · simp only [List.not_mem_nil, or_false] at he
      rcases he with rfl | rfl | rfl | rfl | rfl | rfl <;> rfl
    · rfl
    · exact (hpost e (List.mem_append.2 he)).2


/-- C10: take any invocations `before`, then an invocation that finds the once gate open,
gets its context and receives an error from the root `ProxyOnContextCreate`.  That
invocation panics with the gate consumed, its only access being the failed root creation.
Over the whole sequence, whatever invocations come `later`, `ProxyOnContextCreate` with
parent `0` is called exactly once.  Every invocation after that goes straight from the
mutex to `Lock`, `SetImports` and the leaf `ProxyOnContextCreate` with parent
`rootContextID`. -/
theorem C10_failed_root_create_consumes_gate (before later : List (Request × Outcomes)) (r : Request) (o : Outcomes)
    (hgate : (serve before (main Pkg.zero)).1.onceDone = false)
    (hctx : (getWasmContext o (serve before (main Pkg.zero)).1).2.2.isSome = true)
    (hfail : o.rootCreate = false) :
    (ServeHTTP r o (serve before (main Pkg.zero)).1).panicked = true ∧
    (ServeHTTP r o (serve before (main Pkg.zero)).1).state.onceDone = true ∧
    (ServeHTTP r o (serve before (main Pkg.zero)).1).trace.filter Event.isAccess =
      [Event.ProxyOnContextCreate (main Pkg.zero).rootContextID 0
        ContextType.ContextTypeHttpContext false] ∧
    (serve (before ++ (r, o) :: later) (main Pkg.zero)).2.countP (Event.isCreateUnder 0) = 1 ∧
    ∀ (r1 : Request) (o1 : Outcomes),
      (ServeHTTP r1 o1 (serve (before ++ (r, o) :: later) (main Pkg.zero)).1).trace.take 5 =
        [Event.mutexLock, Event.mutexUnlock, Event.Lock,
         Event.SetImports { reqHeader := { realMap := r1.Header } },
         Event.ProxyOnContextCreate
           (AddInt32 (serve (before ++ (r, o) :: later) (main Pkg.zero)).1.contextIDGenerator 1)
           (main Pkg.zero).rootContextID ContextType.ContextTypeHttpContext o1.leafCreate] := by
  have hroot0 : (serve before (main Pkg.zero)).1.rootContextID = 1 := by
    rw [serve_root, main_zero_root]
  obtain ⟨hp, hd, hc, ha⟩ :=
    ServeHTTP_gate_fails r o (serve before (main Pkg.zero)).1 hgate hctx hfail
  have hroot1 : (ServeHTTP r o (serve before (main Pkg.zero)).1).state.rootContextID = 1 := by
    rw [ServeHTTP_root, hroot0]
  have hstate : (serve (before ++ (r, o) :: later) (main Pkg.zero)).1 =
      (serve later (ServeHTTP r o (serve before (main Pkg.zero)).1).state).1 := by
    rw [serve_append]; rfl
  have htrace : (serve (before ++ (r, o) :: later) (main Pkg.zero)).2 =
      (serve before (main Pkg.zero)).2 ++
        ((ServeHTTP r o (serve before (main Pkg.zero)).1).trace ++
          (serve later (ServeHTTP r o (serve before (main Pkg.zero)).1).state).2) := by
    rw [serve_append]; rfl
  have hunder : ∀ l : List Event, l.countP (Event.isCreateUnder 0) =
      (l.filter Event.isAccess).countP (Event.isCreateUnder 0) := by
    intro l
    rw [List.countP_filter]
    apply List.countP_congr
    intro e _
    cases e <;> simp [Event.isCreateUnder, Event.isAccess]
  have hcreate : ∀ l : List Event, l.countP Event.isCreate = 0 →
      l.countP (Event.isCreateUnder 0) = 0 := by
    intro l hl
    rw [List.countP_eq_zero] at hl ⊢
    intro e he
    have := hl e he
    cases e <;> simp_all [Event.isCreateUnder, Event.isCreate]
  refine ⟨hp, hd, ?_, ?_, ?_⟩
  · rw [ha, hroot0, main_zero_root]
  · rw [htrace, List.countP_append, List.countP_append,
      hcreate _ (serve_cold before _ hgate),
      serve_warm_under 0 later _ hd hc (by rw [hroot1]; decide),
      hunder (ServeHTTP r o (serve before (main Pkg.zero)).1).trace, ha]
    simp [List.countP_cons, Event.isCreateUnder]
  · intro r1 o1
    rw [hstate]
    have hw := serve_warm_inv later _ hd hc
    obtain ⟨ctx, hctx1⟩ := Option.isSome_iff_exists.1 hw.2
    rw [ServeHTTP_warm r1 o1 _ ctx hctx1 hw.1]
    have hr : (serve later (ServeHTTP r o (serve before (main Pkg.zero)).1).state).1.rootContextID
        = 1 := by rw [serve_root, hroot1]
    rw [main_zero_root]
    simp only [List.take_succ_cons]
    rw [lockedSection_take]
    simp [hr]


/-- C10 at a concrete input: the first invocation after `main` fails to create the root, and
the invocation after one more request still starts with the leaf protocol. -/
theorem C10_failed_root_create_consumes_gate_witness :
    (serve [] (main Pkg.zero)).1.onceDone = false ∧
    (getWasmContext Outcomes.rootFails (serve [] (main Pkg.zero)).1).2.2.isSome = true ∧
    Outcomes.rootFails.rootCreate = false ∧
    (serve ([] ++ (twoHeaders, Outcomes.rootFails) :: [(twoHeaders, Outcomes.allOk)])
      (main Pkg.zero)).2.countP (Event.isCreateUnder 0) = 1 ∧
    (ServeHTTP twoHeaders Outcomes.allOk
      (serve ([] ++ (twoHeaders, Outcomes.rootFails) :: [(twoHeaders, Outcomes.allOk)])
        (main Pkg.zero)).1).trace.take 5 =
      [Event.mutexLock, Event.mutexUnlock, Event.Lock,
       Event.SetImports { reqHeader := { realMap := twoHeaders.Header } },
       Event.ProxyOnContextCreate
         (AddInt32 (serve ([] ++ (twoHeaders, Outcomes.rootFails) ::
           [(twoHeaders, Outcomes.allOk)]) (main Pkg.zero)).1.contextIDGenerator 1)
         (main Pkg.zero).rootContextID ContextType.ContextTypeHttpContext
         Outcomes.allOk.leafCreate] :=
  ⟨by decide, by decide, rfl,
   (C10_failed_root_create_consumes_gate [] [(twoHeaders, Outcomes.allOk)] twoHeaders
      Outcomes.rootFails (by decide) (by decide) rfl).2.2.2.1,
   (C10_failed_root_create_consumes_gate [] [(twoHeaders, Outcomes.allOk)] twoHeaders
      Outcomes.rootFails (by decide) (by decide) rfl).2.2.2.2 twoHeaders Outcomes.allOk⟩

/-! ## Sequences in which the module loads and starts -/

/-- An invocation that finds no context and cannot read the module only takes the mutex. -/
theorem ServeHTTP_readFails (r : Request) (o : Outcomes) (s : Pkg)
    (hs : s.wasmCtx = none) (ho : o.readFile = false) :
    ServeHTTP r o s =
      { state := s, trace := [Event.mutexLock, Event.ReadFile false, Event.mutexUnlock],
        panicked := true } := by
  rcases s with ⟨g, root, od, ctx⟩
  rcases o with ⟨a, b, c, d, e, f⟩
  simp only at hs ho
  subst hs ho
  simp [ServeHTTP, getWasmContext]

/-- Once a context is assigned it stays assigned, and `Start` is not called again. -/
theorem ServeHTTP_loaded_no_start (r : Request) (o : Outcomes) (s : Pkg)
    (hs : s.wasmCtx.isSome = true) :
    (ServeHTTP r o s).state.wasmCtx.isSome = true ∧
    (ServeHTTP r o s).trace.any Event.isStartOk = false := by
  rcases s with ⟨g, root, od, ctx⟩
  rcases o with ⟨a, b, c, d, e, f⟩
  cases ctx with
  | none => simp at hs
  | some ctx =>
    cases od <;> cases c <;> cases d <;> cases e <;> cases f <;>
      simp [ServeHTTP, getWasmContext, onceDo, lockedSection, Event.isStartOk]

/-- No sequence of invocations calls `Start` once a context is assigned. -/
theorem serve_loaded_no_start (l : List (Request × Outcomes)) : ∀ s : Pkg,
    s.wasmCtx.isSome = true → (serve l s).2.any Event.isStartOk = false := by
  induction l with
  | nil => intro s _; rfl
  | cons x l ih =>
    intro s hs
    rcases x with ⟨r, o⟩
    have h := ServeHTTP_loaded_no_start r o s hs
    simp only [serve, List.any_append, h.2, ih _ h.1, Bool.or_self]

/-- An invocation that reads the module and gets an error from `Start` leaves the context
assigned and has no successful `Start`. -/
theorem ServeHTTP_start_fails (r : Request) (o : Outcomes) (s : Pkg)
    (hs : s.wasmCtx = none) (h1 : o.readFile = true) (h2 : o.start = false) :
    (ServeHTTP r o s).state.wasmCtx.isSome = true ∧
    (ServeHTTP r o s).trace.any Event.isStartOk = false := by
  rcases s with ⟨g, root, od, ctx⟩
  rcases o with ⟨a, b, c, d, e, f⟩
  simp only at hs h1 h2
  subst hs h1 h2
  simp [ServeHTTP, getWasmContext, Event.isStartOk]

/-- A sequence run from a state without context whose trace has a successful `Start` is
made of invocations that fail to read the module, then one that reads and starts it, then
any invocations. -/
theorem serve_started_split (s : Pkg) (hs : s.wasmCtx = none)
    (l : List (Request × Outcomes)) :
    (serve l s).2.any Event.isStartOk = true →
    ∃ before r o rest, l = before ++ (r, o) :: rest ∧
      (∀ x ∈ before, x.2.readFile = false) ∧ o.readFile = true ∧ o.start = true := by
  induction l with
  | nil => intro h; simp [serve] at h
  | cons x l ih =>
    intro h
    rcases x with ⟨r, o⟩
    cases hread : o.readFile with
    | false =>
      have hstep := ServeHTTP_readFails r o s hs hread
      simp only [serve, hstep, List.any_append] at h
      have h1 : (serve l s).2.any Event.isStartOk = true := by
        simpa [Event.isStartOk] using h
      obtain ⟨before, r1, o1, rest, hl, hb, hr, hst⟩ := ih h1
      refine ⟨(r, o) :: before, r1, o1, rest, by rw [hl]; rfl, ?_, hr, hst⟩
      intro x hx
      rcases List.mem_cons.1 hx with rfl | hx
      · exact hread
      · exact hb x hx
    | true =>
      cases hstart : o.start with
      | true => exact ⟨[], r, o, l, rfl, by simp, hread, hstart⟩
      | false =>
        have hstep := ServeHTTP_start_fails r o s hs hread hstart
        have hrest := serve_loaded_no_start l _ hstep.1
        simp only [serve, List.any_append, hstep.2, hrest] at h
        exact absurd h (by decide)

/-- Invocations that all fail to read the module leave the state as it was and only take
the mutex. -/
theorem serve_readFails (s : Pkg) (hs : s.wasmCtx = none) (l : List (Request × Outcomes)) :
    (∀ x ∈ l, x.2.readFile = false) →
    (serve l s).1 = s ∧
    ∀ e ∈ (serve l s).2,
      e = Event.mutexLock ∨ e = Event.ReadFile false ∨ e = Event.mutexUnlock := by
  induction l with
  | nil => intro _; simp [serve]
  | cons x l ih =>
    intro h
    rcases x with ⟨r, o⟩
    have hread : o.readFile = false := h (r, o) (List.mem_cons_self _ _)
    have hstep := ServeHTTP_readFails r o s hs hread
    have hl := ih (fun x hx => h x (List.mem_cons_of_mem _ hx))
    simp only [serve, hstep]
    refine ⟨hl.1, ?_⟩
    intro e he
    rcases List.mem_append.1 he with he | he
    · simpa using he
    · exact hl.2 e he

/-- C4: for every sequence of invocations after `main` in which the module loads and starts
(some `Start` of the trace returns no error, whether in the first invocation or after
invocations that failed to read the module), of length below `2^32` (which covers every
length up to the limit `2^31 - 1` of the identifiers), the trace has the shape
`pre ++ ProxyOnContextCreate(rootContextID, 0, ContextTypeHttpContext) :: post` with no
`ProxyOnContextCreate` in `pre` and none for `rootContextID` in `post`; so exactly one
call creates the root, it precedes every leaf creation, and no `ProxyOnDone` is ever
called with `rootContextID`. -/
theorem C4_root_created_once_never_done (inputs : List (Request × Outcomes))
    (hstarted : (serve inputs (main Pkg.zero)).2.any Event.isStartOk = true)
    (hlen : inputs.length < 2 ^ 32) :
    ∃ pre post ok,
      (serve inputs (main Pkg.zero)).2 =
        pre ++ Event.ProxyOnContextCreate (main Pkg.zero).rootContextID 0
          ContextType.ContextTypeHttpContext ok :: post ∧
      (∀ e ∈ pre, e.isCreate = false) ∧
      (∀ e ∈ post, e.isCreateOf (main Pkg.zero).rootContextID = false) ∧
      (serve inputs (main Pkg.zero)).2.countP
        (Event.isCreateOf (main Pkg.zero).rootContextID) = 1 ∧
      (∀ e ∈ (serve inputs (main Pkg.zero)).2,
        e.isDoneOf (main Pkg.zero).rootContextID = false) := by
  have hnil : (main Pkg.zero).wasmCtx = none := by decide
  obtain ⟨before, r, o, rest, hl, hb, hread, hstart⟩ :=
    serve_started_split (main Pkg.zero) hnil inputs hstarted
  subst hl
  obtain ⟨hstate, hbefore⟩ := serve_readFails (main Pkg.zero) hnil before hb
  have hlen1 : ((r, o) :: rest).length < 2 ^ 32 := by
    simp only [List.length_append] at hlen
    omega
  obtain ⟨pre, post, ok, htr, hpre, hpost, hcount, hdone⟩ :=
    serve_from_loading_invocation r o rest hread hstart hlen1
  have htrace : (serve (before ++ (r, o) :: rest) (main Pkg.zero)).2 =
      (serve before (main Pkg.zero)).2 ++ (serve ((r, o) :: rest) (main Pkg.zero)).2 := by
    rw [serve_append, hstate]
  refine ⟨(serve before (main Pkg.zero)).2 ++ pre, post, ok, ?_, ?_, hpost, ?_, ?_⟩
  · rw [htrace, htr, List.append_assoc]
  · intro e he
    rcases List.mem_append.1 he with he | he
    · rcases hbefore e he with rfl | rfl | rfl <;> rfl
    · exact hpre e he
  · rw [htrace, List.countP_append, hcount]
    have h0 : List.countP (Event.isCreateOf (main Pkg.zero).rootContextID)
        (serve before (main Pkg.zero)).2 = 0 := by
      rw [List.countP_eq_zero]
      intro e he
      rcases hbefore e he with rfl | rfl | rfl <;> simp [Event.isCreateOf]
    rw [h0]
  · intro e he
    rw [htrace] at he
    rcases List.mem_append.1 he with he | he
    · rcases hbefore e he with rfl | rfl | rfl <;> rfl
    · exact hdone e he

/-- C4 at a concrete input: an invocation that fails to read the module, one that loads
and starts it with every call succeeding, and one that panics on `ProxyOnRequestHeaders`. -/
theorem C4_root_created_once_never_done_witness :
    (serve [(twoHeaders, Outcomes.readFails), (twoHeaders, Outcomes.allOk),
        (twoHeaders, Outcomes.headersFail)] (main Pkg.zero)).2.any Event.isStartOk = true ∧
    [(twoHeaders, Outcomes.readFails), (twoHeaders, Outcomes.allOk),
      (twoHeaders, Outcomes.headersFail)].length < 2 ^ 32 ∧
    ∃ pre post ok,
      (serve [(twoHeaders, Outcomes.readFails), (twoHeaders, Outcomes.allOk),
          (twoHeaders, Outcomes.headersFail)] (main Pkg.zero)).2 =
        pre ++ Event.ProxyOnContextCreate (main Pkg.zero).rootContextID 0
          ContextType.ContextTypeHttpContext ok :: post ∧
      (∀ e ∈ pre, e.isCreate = false) ∧
      (∀ e ∈ post, e.isCreateOf (main Pkg.zero).rootContextID = false) ∧
      (serve [(twoHeaders, Outcomes.readFails), (twoHeaders, Outcomes.allOk),
          (twoHeaders, Outcomes.headersFail)] (main Pkg.zero)).2.countP
        (Event.isCreateOf (main Pkg.zero).rootContextID) = 1 ∧
      (∀ e ∈ (serve [(twoHeaders, Outcomes.readFails), (twoHeaders, Outcomes.allOk),
          (twoHeaders, Outcomes.headersFail)] (main Pkg.zero)).2,
        e.isDoneOf (main Pkg.zero).rootContextID = false) :=
  ⟨by decide, by norm_num,
   C4_root_created_once_never_done
     [(twoHeaders, Outcomes.readFails), (twoHeaders, Outcomes.allOk),
      (twoHeaders, Outcomes.headersFail)] (by decide) (by norm_num)⟩

end ProxyWasm
